import Mathlib

/-!
# go-gorm-db: the HTTP surface built by `main`

A shallow embedding of `src/main.go` (route table, cross-origin policy,
not-found handler, start-up sequence) and of `src/models/Teacher.go`.
-/

set_option autoImplicit false

namespace GoGormDb

/-! ## Route table (`main.go`, lines 61-120) -/

/-- The repository value a handler is a method of (`itemRepo`, `studentRepo`, ...). -/
inductive Repo where
  | itemRepo
  | studentRepo
  | subjectRepo
  | userRepo
  | teacherRepo
  deriving DecidableEq, Repr

/-- A handler value `repo.Method`, as passed to `r.GET`, `r.POST`, ... -/
structure Handler where
  repo : Repo
  method : String
  deriving DecidableEq, Repr

/-- One call `r.VERB(pattern, handler)`. -/
structure Route where
  verb : String
  pattern : String
  handler : Handler
  deriving DecidableEq, Repr

/-- The registrations performed by `main`, in source order. -/
def mainRoutes : List Route :=
  [ ⟨"GET", "/items", ⟨.itemRepo, "GetItems"⟩⟩,
    ⟨"POST", "/items", ⟨.itemRepo, "PostItem"⟩⟩,
    ⟨"GET", "/items/:id", ⟨.itemRepo, "GetItem"⟩⟩,
    ⟨"PUT", "/items/:id", ⟨.itemRepo, "UpdateItem"⟩⟩,
    ⟨"DELETE", "/items/:id", ⟨.itemRepo, "DeleteItem"⟩⟩,
    ⟨"GET", "/students", ⟨.studentRepo, "GetStudents"⟩⟩,
    ⟨"POST", "/students", ⟨.studentRepo, "CreateStudent"⟩⟩,
    ⟨"GET", "/students/:id", ⟨.studentRepo, "GetStudent"⟩⟩,
    ⟨"PUT", "/students/:id", ⟨.studentRepo, "UpdateStudent"⟩⟩,
    ⟨"DELETE", "/students/:id", ⟨.studentRepo, "DeleteStudent"⟩⟩,
    ⟨"GET", "/subjects", ⟨.subjectRepo, "GetSubjects"⟩⟩,
    ⟨"POST", "/subjects", ⟨.subjectRepo, "CreateSubject"⟩⟩,
    ⟨"GET", "/subjects/:id", ⟨.subjectRepo, "GetSubject"⟩⟩,
    ⟨"PUT", "/subjects/:id", ⟨.subjectRepo, "UpdateSubject"⟩⟩,
    ⟨"DELETE", "/subjects/:id", ⟨.subjectRepo, "DeleteSubject"⟩⟩,
    ⟨"GET", "/users", ⟨.userRepo, "GetUsers"⟩⟩,
    ⟨"POST", "/users", ⟨.userRepo, "PostUser"⟩⟩,
    ⟨"GET", "/users/:email", ⟨.userRepo, "GetUser"⟩⟩,
    ⟨"PUT", "/users/:email", ⟨.userRepo, "UpdateUser"⟩⟩,
    ⟨"DELETE", "/users/:email", ⟨.userRepo, "DeleteUser"⟩⟩,
    ⟨"POST", "/users/login", ⟨.userRepo, "Login"⟩⟩,
    ⟨"GET", "/teachers", ⟨.teacherRepo, "GetTeachers"⟩⟩,
    ⟨"POST", "/teachers", ⟨.teacherRepo, "CreateTeacher"⟩⟩,
    ⟨"GET", "/teachers/:id", ⟨.teacherRepo, "GetTeacher"⟩⟩,
    ⟨"PUT", "/teachers/:id", ⟨.teacherRepo, "UpdateTeacher"⟩⟩,
    ⟨"DELETE", "/teachers/:id", ⟨.teacherRepo, "DeleteTeacher"⟩⟩ ]

/-! ### The table the specification describes -/

/-- The five operations of the uniform resource pattern, plus login. -/
inductive Action where
  | list
  | create
  | getOne
  | update
  | delete
  | login
  deriving DecidableEq, Repr

/-- The five resources. -/
def allRepos : List Repo :=
  [.itemRepo, .studentRepo, .subjectRepo, .userRepo, .teacherRepo]

/-- Base path of a resource. -/
def basePath : Repo → String
  | .itemRepo => "/items"
  | .studentRepo => "/students"
  | .subjectRepo => "/subjects"
  | .userRepo => "/users"
  | .teacherRepo => "/teachers"

/-- Key segment of a resource: `:email` for users, `:id` otherwise. -/
def keySegment : Repo → String
  | .userRepo => "/:email"
  | _ => "/:id"

/-- The repository method that plays each role, by its name in `main.go`. -/
def handlerFor : Repo → Action → Option Handler
  | .itemRepo, .list => some ⟨.itemRepo, "GetItems"⟩
  | .itemRepo, .create => some ⟨.itemRepo, "PostItem"⟩
  | .itemRepo, .getOne => some ⟨.itemRepo, "GetItem"⟩
  | .itemRepo, .update => some ⟨.itemRepo, "UpdateItem"⟩
  | .itemRepo, .delete => some ⟨.itemRepo, "DeleteItem"⟩
  | .studentRepo, .list => some ⟨.studentRepo, "GetStudents"⟩
  | .studentRepo, .create => some ⟨.studentRepo, "CreateStudent"⟩
  | .studentRepo, .getOne => some ⟨.studentRepo, "GetStudent"⟩
  | .studentRepo, .update => some ⟨.studentRepo, "UpdateStudent"⟩
  | .studentRepo, .delete => some ⟨.studentRepo, "DeleteStudent"⟩
  | .subjectRepo, .list => some ⟨.subjectRepo, "GetSubjects"⟩
  | .subjectRepo, .create => some ⟨.subjectRepo, "CreateSubject"⟩
  | .subjectRepo, .getOne => some ⟨.subjectRepo, "GetSubject"⟩
  | .subjectRepo, .update => some ⟨.subjectRepo, "UpdateSubject"⟩
  | .subjectRepo, .delete => some ⟨.subjectRepo, "DeleteSubject"⟩
  | .userRepo, .list => some ⟨.userRepo, "GetUsers"⟩
  | .userRepo, .create => some ⟨.userRepo, "PostUser"⟩
  | .userRepo, .getOne => some ⟨.userRepo, "GetUser"⟩
  | .userRepo, .update => some ⟨.userRepo, "UpdateUser"⟩
  | .userRepo, .delete => some ⟨.userRepo, "DeleteUser"⟩
  | .userRepo, .login => some ⟨.userRepo, "Login"⟩
  | .teacherRepo, .list => some ⟨.teacherRepo, "GetTeachers"⟩
  | .teacherRepo, .create => some ⟨.teacherRepo, "CreateTeacher"⟩
  | .teacherRepo, .getOne => some ⟨.teacherRepo, "GetTeacher"⟩
  | .teacherRepo, .update => some ⟨.teacherRepo, "UpdateTeacher"⟩
  | .teacherRepo, .delete => some ⟨.teacherRepo, "DeleteTeacher"⟩
  | _, .login => none

/-- Verb and path of an action on a resource, as in the interface table of the
specification. -/
def specBinding (p : Repo) : Action → String × String
  | .list => ("GET", basePath p)
  | .create => ("POST", basePath p)
  | .getOne => ("GET", basePath p ++ keySegment p)
  | .update => ("PUT", basePath p ++ keySegment p)
  | .delete => ("DELETE", basePath p ++ keySegment p)
  | .login => ("POST", basePath p ++ "/login")

/-- All actions. -/
def allActions : List Action :=
  [.list, .create, .getOne, .update, .delete, .login]

/-- The route table as the specification words it: for every resource, every
action that has a handler, bound at the verb and path of the interface table. -/
def specRoutes : List Route :=
  allRepos.flatMap fun p =>
    allActions.filterMap fun a =>
      (handlerFor p a).map fun h => ⟨(specBinding p a).1, (specBinding p a).2, h⟩

/-- The resource whose base path is the first segment of a pattern. -/
def ownerOfPattern (pattern : String) : Option Repo :=
  allRepos.find? fun p =>
    pattern == basePath p || (basePath p ++ "/").data.isPrefixOf pattern.data

/-! ## Request dispatch

`r := gin.Default()` (`main.go`, line 50) creates the engine; the framework's
sources are not part of this repository, so its dispatch is embedded after its
behaviour on the trees `main` registers: one tree per verb, a `:name` segment
binds one non-empty path segment, `RedirectTrailingSlash` is on by default (an
unmatched request for which the tree walk recommends dropping the trailing
slash is redirected: 301 for `GET`, 307 for every other verb),
`RedirectFixedPath` and `HandleMethodNotAllowed` are off, and every other
request runs the middleware and then the `NoRoute` handler. -/

/-- Cut a path at every slash: `/items/5` gives `["", "items", "5"]`. -/
def splitSlash : List Char → List (List Char)
  | [] => [[]]
  | c :: cs =>
    if c = '/' then [] :: splitSlash cs
    else
      match splitSlash cs with
      | [] => [[c]]
      | s :: ss => (c :: s) :: ss

/-- Path parameters bound by a match (`c.Param`). -/
abbrev Params := List (String × String)

/-- The name of a parameter segment `:name`; `none` for a static segment. -/
def paramName : List Char → Option (List Char)
  | ':' :: name => some name
  | _ => none

/-- Match the segments of a pattern against the segments of a request path. -/
def matchSegs : List (List Char) → List (List Char) → Option Params
  | [], [] => some []
  | p :: ps, s :: ss =>
    match paramName p with
    | some name =>
      if s = [] then none
      else (matchSegs ps ss).map fun bound => (String.mk name, String.mk s) :: bound
    | none => if p = s then matchSegs ps ss else none
  | _, _ => none

/-- Two patterns can match a common path only if they have as many segments
and agree wherever both are static. -/
def overlapSegs : List (List Char) → List (List Char) → Bool
  | [], [] => true
  | p :: ps, q :: qs =>
    ((paramName p).isSome || (paramName q).isSome || decide (p = q)) && overlapSegs ps qs
  | _, _ => false

/-- Two registrations that some request could both match. -/
def Route.overlaps (a b : Route) : Bool :=
  a.verb == b.verb && overlapSegs (splitSlash a.pattern.data) (splitSlash b.pattern.data)

/-- Match a registered pattern against a request path. -/
def matchPattern (pattern path : String) : Option Params :=
  matchSegs (splitSlash pattern.data) (splitSlash path.data)

/-- A route matches a request when the verb is the one it was registered
under and its pattern matches the path. -/
def routeMatches (r : Route) (verb path : String) : Bool :=
  r.verb == verb && (matchPattern r.pattern path).isSome

/-- Look a request up in the tree of its verb. -/
def findRoute (routes : List Route) (verb path : String) : Option (Handler × Params) :=
  routes.findSome? fun r =>
    if r.verb = verb then (matchPattern r.pattern path).map fun bound => (r.handler, bound)
    else none

/-- The tree walk reads a parameter up to the next slash before it looks at
what follows, so for the trailing-slash recommendation a parameter segment may
also be empty. (All parameters registered here are final segments.) -/
def walkSegs : List (List Char) → List (List Char) → Bool
  | [], [] => true
  | p :: ps, s :: ss =>
    match paramName p with
    | some _ => walkSegs ps ss
    | none => decide (p = s) && walkSegs ps ss
  | _, _ => false

/-- The trailing-slash recommendation of the tree walk on the trees `main`
registers: the path ends in a slash and, read without that slash, walks a
pattern of the verb to its end: `/items/` (for `GET` and `POST`),
`/items/5/` and `/items//` (for `GET`, `PUT` and `DELETE`). No pattern ends in
a slash, so no slash is ever recommended to be added. -/
def trailingSlashRecommended (routes : List Route) (verb path : String) : Bool :=
  decide (1 < path.data.length) && path.data.getLast? == some '/' &&
    routes.any fun r =>
      r.verb == verb && walkSegs (splitSlash r.pattern.data) (splitSlash path.data.dropLast)

/-- The result of the tree lookup (`nodeValue`): the handler and parameters of
the matching route, or else the trailing-slash recommendation. -/
structure NodeValue where
  handlers : Option (Handler × Params)
  tsr : Bool
  deriving DecidableEq, Repr

/-- Look a path up in the tree of a verb. -/
def getValue (routes : List Route) (verb path : String) : NodeValue :=
  { handlers := findRoute routes verb path,
    tsr := (findRoute routes verb path).isNone && trailingSlashRecommended routes verb path }

/-! ## Cross-origin policy (`main.go`, lines 52-60)

`cors.New` comes from a library outside this repository; the middleware is
embedded after its behaviour: a request without `Origin`, or whose `Origin` is
`http://` or `https://` followed by its own `Host`, is not a cross-origin
request and passes unchecked; any other request is aborted with 403 unless
its origin is listed; a listed origin gets the preflight headers and 204 on
`OPTIONS`, the normal headers otherwise. -/

/-- The parts of a request that dispatch looks at: the verb, the decoded path,
the `Origin` header (empty when absent) and the `Host`. The request carries no
query string and no `X-Forwarded-Prefix` header. -/
structure Request where
  method : String
  path : String
  origin : String
  host : String
  deriving DecidableEq, Repr

/-- Response headers. -/
abbrev Headers := List (String × String)

/-- The constant `time.Second`, in nanoseconds. -/
def Second : Nat := 1000000000

/-- The constant `time.Hour`, in nanoseconds. -/
def Hour : Nat := 3600 * Second

/-- The fields of `cors.Config` that `main` sets; the others keep their zero
value (no origin function, no wildcard patterns, no exposed headers). -/
structure Config where
  AllowOrigins : List String
  AllowMethods : List String
  AllowHeaders : List String
  AllowCredentials : Bool
  MaxAge : Nat
  deriving DecidableEq, Repr

/-- The configuration literal passed to `cors.New`. -/
def corsConfig : Config :=
  { AllowOrigins := ["http://localhost:5173"],
    AllowMethods := ["GET", "POST", "PUT", "PATCH", "DELETE", "HEAD"],
    AllowHeaders := ["Origin", "Content-Length", "Content-Type"],
    AllowCredentials := true,
    MaxAge := 12 * Hour }

/-- Whether the list of origins holds `*`. -/
def allowAllOrigins (cfg : Config) : Bool :=
  cfg.AllowOrigins.contains "*"

/-- The origin check that `applyCors` makes on a cross-origin request: every
origin when the list holds `*`, otherwise the origins of the list, compared as
whole strings (the list of `main` is already trimmed and in lower case). -/
def validateOrigin (cfg : Config) (origin : String) : Bool :=
  cfg.AllowOrigins.contains "*" || cfg.AllowOrigins.contains origin

/-- Decimal digits of a number, least significant first; `fuel` bounds the
number of digits. -/
def digitsRev : Nat → Nat → List Char
  | 0, _ => []
  | fuel + 1, n =>
    Char.ofNat (48 + n % 10) :: (if n / 10 = 0 then [] else digitsRev fuel (n / 10))

/-- Decimal rendering, as `strconv.FormatInt(n, 10)` for a natural number
below `10^20`. -/
def formatInt (n : Nat) : String :=
  String.mk (digitsRev 20 n).reverse

/-- Headers set on a permitted request that is not a preflight. -/
def generateNormalHeaders (cfg : Config) : Headers :=
  (if cfg.AllowCredentials then [("Access-Control-Allow-Credentials", "true")] else []) ++
    (if allowAllOrigins cfg then [("Access-Control-Allow-Origin", "*")]
     else [("Vary", "Origin")])

/-- Headers set on a permitted preflight. The lists of `main` are already
trimmed, free of duplicates and in the case the library would put them in
(verbs upper case, headers in canonical form). -/
def generatePreflightHeaders (cfg : Config) : Headers :=
  (if cfg.AllowCredentials then [("Access-Control-Allow-Credentials", "true")] else []) ++
    (if cfg.AllowMethods.length > 0 then
      [("Access-Control-Allow-Methods", ",".intercalate cfg.AllowMethods)] else []) ++
    (if cfg.AllowHeaders.length > 0 then
      [("Access-Control-Allow-Headers", ",".intercalate cfg.AllowHeaders)] else []) ++
    (if cfg.MaxAge > 0 then
      [("Access-Control-Max-Age", formatInt (cfg.MaxAge / Second))] else []) ++
    (if allowAllOrigins cfg then [("Access-Control-Allow-Origin", "*")]
     else [("Vary", "Origin"), ("Vary", "Access-Control-Request-Method"),
           ("Vary", "Access-Control-Request-Headers")])

/-- The constant `http.StatusForbidden`. -/
def StatusForbidden : Nat := 403

/-- The constant `http.StatusNoContent`. -/
def StatusNoContent : Nat := 204

/-- What the middleware does with a request: let it through to the next
handler with some headers set, or abort it with a status. -/
inductive CorsResult where
  | next (headers : Headers)
  | abort (status : Nat) (headers : Headers)
  deriving DecidableEq, Repr

/-- The header naming the permitted origin, set unless every origin is
allowed. -/
def allowOriginHeader (cfg : Config) (origin : String) : Headers :=
  if allowAllOrigins cfg then [] else [("Access-Control-Allow-Origin", origin)]

/-- The middleware installed by `r.Use(cors.New(...))`. -/
def applyCors (cfg : Config) (req : Request) : CorsResult :=
  if req.origin.data.length = 0 then .next []
  else if req.origin = "http://" ++ req.host ∨ req.origin = "https://" ++ req.host then
    .next []
  else if validateOrigin cfg req.origin = false then .abort StatusForbidden []
  else if req.method = "OPTIONS" then
    .abort StatusNoContent (generatePreflightHeaders cfg ++ allowOriginHeader cfg req.origin)
  else .next (generateNormalHeaders cfg ++ allowOriginHeader cfg req.origin)

/-- The port the comment of line 54 names as the frontend's. -/
def commentedFrontendOrigin : String := "http://localhost:3000"

/-! ## The engine -/

/-- A `gin.H` value with string members. -/
abbrev H := List (String × String)

/-- Render a `gin.H` whose keys and values need no escaping. -/
def encodeJSON (h : H) : String :=
  "\x7b" ++ ",".intercalate (h.map fun kv => "\"" ++ kv.1 ++ "\":\"" ++ kv.2 ++ "\"") ++ "\x7d"

/-- What the engine does with a request: hand it to a repository handler (with
the headers the middleware has set), redirect it, abort it in the middleware,
or answer with a JSON body (with the headers the middleware has set). -/
inductive Outcome where
  | handler (h : Handler) (bound : Params) (set : Headers)
  | redirect (code : Nat) (location : String)
  | abort (status : Nat) (set : Headers)
  | json (status : Nat) (body : String) (set : Headers)
  deriving DecidableEq, Repr

/-- The constant `http.StatusNotFound`. -/
def StatusNotFound : Nat := 404

/-- The function passed to `r.NoRoute` (`main.go`, lines 123-125):
`c.JSON(http.StatusNotFound, gin.H{"message": "Not found"})`. -/
def noRouteHandler (set : Headers) : Outcome :=
  .json StatusNotFound (encodeJSON [("message", "Not found")]) set

/-- The engine as `main` leaves it before `r.Run`. -/
structure Engine where
  routes : List Route
  RedirectTrailingSlash : Bool
  cors : Config
  noRoute : Headers → Outcome

/-- The engine of `main`: `gin.Default()`, the middleware of lines 53-60 and
the registrations of lines 61-125. -/
def mainEngine : Engine :=
  { routes := mainRoutes, RedirectTrailingSlash := true, cors := corsConfig,
    noRoute := noRouteHandler }

/-- The path the trailing-slash redirect points at: the final slash removed
when there is one (and the path is longer than it), one added otherwise. -/
def toggleSlash (path : String) : String :=
  if 1 < path.data.length ∧ path.data.getLast? = some '/' then String.mk path.data.dropLast
  else path ++ "/"

/-- The redirect answer: 301 for `GET`, 307 for every other verb. -/
def redirectTrailingSlash (req : Request) : Outcome :=
  .redirect (if req.method = "GET" then 301 else 307) (toggleSlash req.path)

/-- Whether the engine answers an unmatched request with a trailing-slash
redirect. -/
def wantsRedirect (e : Engine) (req : Request) : Bool :=
  req.method != "CONNECT" && req.path != "/" &&
    (getValue e.routes req.method req.path).tsr && e.RedirectTrailingSlash

/-- Run the handlers chain of a request: the middleware, then the final
handler unless the middleware aborted. -/
def runChain (e : Engine) (req : Request) (final : Headers → Outcome) : Outcome :=
  match applyCors e.cors req with
  | .abort status set => .abort status set
  | .next set => final set

/-- Dispatch of one request: the chain of the matching route, or the redirect
(written without running any middleware), or the chain of `NoRoute`. The
logger and recovery middleware of `gin.Default()` write no part of the answer
and are left out of the chain. -/
def handleHTTPRequest (e : Engine) (req : Request) : Outcome :=
  match (getValue e.routes req.method req.path).handlers with
  | some (h, bound) => runChain e req (Outcome.handler h bound)
  | none =>
    if wantsRedirect e req then redirectTrailingSlash req
    else runChain e req e.noRoute

/-! ## Start-up sequence (`main.go`, lines 17-42 and 127-130) -/

/-- What the outside world answers to the calls of `main`: the error, if any,
of `godotenv.Load`, `db.ConnectDatabase`, `database.AutoMigrate` and `r.Run`. -/
structure World where
  loadErr : Option String
  connectErr : Option String
  migrateErr : Option String
  runErr : Option String

/-- The observable steps of `main`. `fatal` is `log.Fatalf`: the message is
logged and the process exits with status 1. -/
inductive Event where
  | loadEnv
  | connectDatabase
  | autoMigrate (models : List String)
  | useCors (cfg : Config)
  | register (r : Route)
  | noRoute
  | run (addr : String)
  | fatal (msg : String)
  deriving DecidableEq, Repr

/-- The entities handed to `database.AutoMigrate`, in source order. -/
def migratedModels : List String := ["Item", "Student", "Subject", "User", "Teacher"]

/-- Everything `main` does between a successful migration and `r.Run`. -/
def setupRouter : List Event :=
  .useCors corsConfig :: (mainRoutes.map Event.register ++ [.noRoute])

/-- The trace of `main` in a given world. -/
def main (w : World) : List Event :=
  .loadEnv ::
    match w.loadErr with
    | some _ => [.fatal "Error loading .env file"]
    | none =>
      .connectDatabase ::
        match w.connectErr with
        | some err => [.fatal ("failed to connect database: " ++ err)]
        | none =>
          .autoMigrate migratedModels ::
            match w.migrateErr with
            | some err => [.fatal ("failed to migrate database: " ++ err)]
            | none =>
              setupRouter ++ .run ":5000" ::
                match w.runErr with
                | some err => [.fatal ("Server is not running: " ++ err)]
                | none => []

/-- An event of the router set-up or the listen step. -/
def Event.isServing : Event → Bool
  | .useCors _ => true
  | .register _ => true
  | .noRoute => true
  | .run _ => true
  | _ => false

/-- The trace ends in a `log.Fatalf`. -/
def endsFatal (t : List Event) : Bool :=
  match t.getLast? with
  | some (.fatal _) => true
  | _ => false

/-! ## Entities (`models/Teacher.go`) -/

/-- The embedded `gorm.Model`: ID, CreatedAt, UpdatedAt and the nullable DeletedAt. -/
structure Model where
  ID : Nat
  CreatedAt : Nat
  UpdatedAt : Nat
  DeletedAt : Option Nat
  deriving DecidableEq, Repr

/-- The struct `models.Teacher`: the embedded `gorm.Model` and four custom fields. -/
structure Teacher extends Model where
  FirstName : String
  LastName : String
  Age : Int
  Subject : String
  deriving DecidableEq, Repr

/-- Modelled from the spec: `models.User` is not among the sources; the
specification gives it the common identity and timestamps, an email that is
its lookup key, and a password field. -/
structure User extends Model where
  Email : String
  Password : String
  deriving DecidableEq, Repr

/-! ## Resource repositories

The repository types (`models.NewTeacherRepository` and its siblings) are not
among the sources; their handlers are modelled from the specification's
uniform pattern, once, for an entity type `E` looked up by a key of type `K`. -/

/-- Modelled from the spec: the repository handlers are absent, and this is
what the uniform pattern needs to know of an entity: how to read and replace
its embedded `gorm.Model`, and the key its get, update and delete take. -/
structure Entity (E K : Type) where
  model : E → Model
  withModel : E → Model → E
  key : E → K
  model_withModel : ∀ e m, model (withModel e m) = m

/-- Modelled from the spec: the absent `TeacherRepository` looks teachers up
by their numeric identity. -/
def teacherEntity : Entity Teacher Nat :=
  { model := fun t => t.toModel,
    withModel := fun t m => { t with toModel := m },
    key := fun t => t.ID,
    model_withModel := fun _ _ => rfl }

/-- Modelled from the spec: the absent `UserRepository` looks users up by
email. -/
def userEntity : Entity User String :=
  { model := fun u => u.toModel,
    withModel := fun u m => { u with toModel := m },
    key := fun u => u.Email,
    model_withModel := fun _ _ => rfl }

/-- Modelled from the spec: the table behind an absent repository: the rows
physically present and the next identity the store generates. -/
structure Store (E : Type) where
  rows : List E
  nextID : Nat
  deriving DecidableEq, Repr

/-- Modelled from the spec: the responses of the absent handlers, by the error
taxonomy of the specification. -/
inductive Response (E : Type) where
  | ok (e : E)
  | all (es : List E)
  | created (e : E)
  | deleted
  | badRequest
  | unauthorized
  | notFound
  | internalError
  deriving DecidableEq, Repr

/-- Modelled from the spec: the HTTP status of each response of the absent
handlers. -/
def Response.status {E : Type} : Response E → Nat
  | .ok _ => 200
  | .all _ => 200
  | .created _ => 201
  | .deleted => 200
  | .badRequest => 400
  | .unauthorized => 401
  | .notFound => 404
  | .internalError => 500

section Repository

variable {E K : Type} [DecidableEq K]

/-- Modelled from the spec: a record is live while its soft-delete timestamp
is unset (the handlers are absent). -/
def Entity.live (ent : Entity E K) (e : E) : Bool :=
  (ent.model e).DeletedAt.isNone

/-- Modelled from the spec: the rows default queries see, those not
soft-deleted (the handlers are absent). -/
def Entity.visible (ent : Entity E K) (s : Store E) : List E :=
  s.rows.filter ent.live

/-- Modelled from the spec: the live record of a key, if any (the handlers are
absent). -/
def Entity.lookup (ent : Entity E K) (s : Store E) (k : K) : Option E :=
  (ent.visible s).find? fun e => decide (ent.key e = k)

/-- Modelled from the spec: the absent list handler returns all non-deleted
records. -/
def Entity.list (ent : Entity E K) (s : Store E) : Response E :=
  .all (ent.visible s)

/-- Modelled from the spec: the absent get-by-key handler returns the record,
or not-found when it is absent or soft-deleted. -/
def Entity.get (ent : Entity E K) (s : Store E) (k : K) : Response E :=
  match ent.lookup s k with
  | some e => .ok e
  | none => .notFound

/-- Modelled from the spec: the row an insert writes: the body with a
generated identity and both timestamps set to the time of the insert. -/
def Entity.fresh (ent : Entity E K) (s : Store E) (body : E) (now : Nat) : E :=
  ent.withModel body { ID := s.nextID, CreatedAt := now, UpdatedAt := now, DeletedAt := none }

/-- Modelled from the spec: the absent create handler. A body that does not
deserialize (`none`) is a client error; a key already present is a store
failure; otherwise the row is inserted and returned. -/
def Entity.create (ent : Entity E K) (s : Store E) (body : Option E) (now : Nat) :
    Response E × Store E :=
  match body with
  | none => (.badRequest, s)
  | some b =>
    if s.rows.any (fun r => decide (ent.key r = ent.key (ent.fresh s b now))) then
      (.internalError, s)
    else
      (.created (ent.fresh s b now),
        { rows := s.rows ++ [ent.fresh s b now], nextID := s.nextID + 1 })

/-- Modelled from the spec: the partial update of one row: the fields of the
body overwritten, identity and creation time kept, update time set. -/
def Entity.patched (ent : Entity E K) (patch : E → E) (now : Nat) (e : E) : E :=
  ent.withModel (patch e) { ent.model e with UpdatedAt := now }

/-- Modelled from the spec: the absent update handler: not-found when no live
record has the key, otherwise the partial update applied and returned. -/
def Entity.update (ent : Entity E K) (s : Store E) (k : K) (patch : E → E) (now : Nat) :
    Response E × Store E :=
  match ent.lookup s k with
  | none => (.notFound, s)
  | some e =>
    (.ok (ent.patched patch now e),
      { s with rows := s.rows.map fun r =>
          if ent.live r && decide (ent.key r = k) then ent.patched patch now r else r })

/-- Modelled from the spec: soft deletion of one row: the soft-delete
timestamp set, nothing else touched. -/
def Entity.marked (ent : Entity E K) (now : Nat) (e : E) : E :=
  ent.withModel e { ent.model e with DeletedAt := some now }

/-- Modelled from the spec: the absent delete handler: not-found when no live
record has the key, otherwise the record is marked soft-deleted. -/
def Entity.delete (ent : Entity E K) (s : Store E) (k : K) (now : Nat) :
    Response E × Store E :=
  match ent.lookup s k with
  | none => (.notFound, s)
  | some _ =>
    (.deleted,
      { s with rows := s.rows.map fun r =>
          if ent.live r && decide (ent.key r = k) then ent.marked now r else r })

end Repository

/-- Modelled from the spec: the absent `Login` handler: success when a live
user has the submitted email and exactly the submitted password, an
authentication error otherwise. -/
def Login (s : Store User) (email password : String) : Response User :=
  match (userEntity.visible s).find? fun u =>
      decide (u.Email = email) && decide (u.Password = password) with
  | some u => .ok u
  | none => .unauthorized

/-- Modelled from the spec: a store as the absent handlers keep it: generated
identities start at 1 and every stored identity is below the next one. -/
def Store.WF {E K : Type} (ent : Entity E K) (s : Store E) : Prop :=
  0 < s.nextID ∧ ∀ r ∈ s.rows, (ent.model r).ID < s.nextID

/-- Modelled from the spec: the store before any insert. -/
def Store.empty (E : Type) : Store E := { rows := [], nextID := 1 }

/-- The create body of the specification's example. -/
def annLee : Teacher :=
  { ID := 0, CreatedAt := 0, UpdatedAt := 0, DeletedAt := none,
    FirstName := "Ann", LastName := "Lee", Age := 30, Subject := "Math" }

/-- A store holding one soft-deleted teacher, deleted at time 9. -/
def deletedAnnStore : Store Teacher :=
  { rows := [{ annLee with ID := 1, CreatedAt := 7, UpdatedAt := 7, DeletedAt := some 9 }],
    nextID := 2 }

/-- The teacher of the example as stored: identity 1, created at time 7. -/
def annRow : Teacher :=
  { annLee with ID := 1, CreatedAt := 7, UpdatedAt := 7 }

/-- A store holding one live teacher. -/
def annStore : Store Teacher :=
  { rows := [annRow], nextID := 2 }

/-- A live account. -/
def annUser : User :=
  { ID := 1, CreatedAt := 1, UpdatedAt := 1, DeletedAt := none,
    Email := "ann@example.com", Password := "s3cret" }

/-- A user store: one live account and one soft-deleted account. -/
def userStore : Store User :=
  { rows :=
      [ annUser,
        { ID := 2, CreatedAt := 2, UpdatedAt := 2, DeletedAt := some 5,
          Email := "bob@example.com", Password := "hunter2" } ],
    nextID := 3 }

/-! ## Lemmas on dispatch -/

theorem overlapSegs_of_matchSegs (p q s : List (List Char))
    (hp : (matchSegs p s).isSome = true) (hq : (matchSegs q s).isSome = true) :
    overlapSegs p q = true := by
  induction p generalizing q s with
  | nil =>
    cases s with
    | nil =>
      cases q with
      | nil => rfl
      | cons q0 qs => simp [matchSegs] at hq
    | cons s0 ss => simp [matchSegs] at hp
  | cons p0 ps ih =>
    cases s with
    | nil => simp [matchSegs] at hp
    | cons s0 ss =>
      cases q with
      | nil => simp [matchSegs] at hq
      | cons q0 qs =>
        have hps : (matchSegs ps ss).isSome = true := by
          unfold matchSegs at hp
          cases hpn : paramName p0 <;> simp only [hpn] at hp
          · split at hp
            · exact hp
            · simp at hp
          · split at hp
            · simp at hp
            · simpa using hp
        have hqs : (matchSegs qs ss).isSome = true := by
          unfold matchSegs at hq
          cases hqn : paramName q0 <;> simp only [hqn] at hq
          · split at hq
            · exact hq
            · simp at hq
          · split at hq
            · simp at hq
            · simpa using hq
        have hhead : ((paramName p0).isSome || (paramName q0).isSome || decide (p0 = q0)) = true := by
          unfold matchSegs at hp hq
          cases hpn : paramName p0 <;> cases hqn : paramName q0 <;>
            simp only [hpn, hqn] at hp hq ⊢
          · split at hp
            · split at hq
              · rename_i h1 h2
                simp [h1, h2]
              · simp at hq
            · simp at hp
          all_goals simp
        unfold overlapSegs
        rw [hhead, ih qs ss hps hqs]
        rfl

theorem filter_length_le_one {α : Type} (P : α → Bool) (l : List α)
    (h : l.Pairwise fun a b => ¬ (P a = true ∧ P b = true)) :
    (l.filter P).length ≤ 1 := by
  induction l with
  | nil => simp
  | cons a t ih =>
    rw [List.pairwise_cons] at h
    by_cases ha : P a = true
    · have ht : t.filter P = [] := by
        rw [List.filter_eq_nil_iff]
        intro b hb hPb
        exact h.1 b hb ⟨ha, hPb⟩
      simp [List.filter_cons, ha, ht]
    · simp only [List.filter_cons, ha]
      exact ih h.2

theorem mainRoutes_pairwise_disjoint :
    mainRoutes.Pairwise fun a b => ¬ (a.overlaps b = true) := by
  decide

theorem overlaps_of_routeMatches (a b : Route) (verb path : String)
    (ha : routeMatches a verb path = true) (hb : routeMatches b verb path = true) :
    a.overlaps b = true := by
  simp only [routeMatches, Bool.and_eq_true, beq_iff_eq] at ha hb
  simp only [Route.overlaps, Bool.and_eq_true, beq_iff_eq]
  refine ⟨ha.1.trans hb.1.symm, ?_⟩
  exact overlapSegs_of_matchSegs _ _ _ ha.2 hb.2

theorem findRoute_eq_none_iff (routes : List Route) (verb path : String) :
    findRoute routes verb path = none ↔ ∀ r ∈ routes, routeMatches r verb path = false := by
  induction routes with
  | nil => simp [findRoute]
  | cons a t ih =>
    simp only [findRoute] at ih
    simp only [findRoute, List.findSome?_cons, List.mem_cons, forall_eq_or_imp, routeMatches]
    by_cases hv : a.verb = verb
    · cases hm : matchPattern a.pattern path with
      | none => simp [hv, hm, ih, routeMatches]
      | some bound => simp [hv, hm]
    · simp [hv, ih, routeMatches]

/-! ## Lemmas on the repositories -/

section RepositoryLemmas

theorem Entity.live_fresh {E K : Type} (ent : Entity E K) (s : Store E) (b : E) (now : Nat) :
    ent.live (ent.fresh s b now) = true := by
  simp [Entity.live, Entity.fresh, ent.model_withModel]

theorem Entity.live_marked {E K : Type} (ent : Entity E K) (now : Nat) (e : E) :
    ent.live (ent.marked now e) = false := by
  simp [Entity.live, Entity.marked, ent.model_withModel]

theorem Entity.lookup_eq_none {E K : Type} [DecidableEq K] (ent : Entity E K) (s : Store E) (k : K)
    (h : ∀ r ∈ s.rows, ent.live r = true → ent.key r ≠ k) :
    ent.lookup s k = none := by
  simp only [Entity.lookup, Entity.visible, List.find?_eq_none, List.mem_filter,
    decide_eq_true_eq]
  intro r hr
  exact h r hr.1 hr.2

theorem Entity.create_fresh_key {E K : Type} [DecidableEq K] (ent : Entity E K) (s : Store E) (b : E) (now : Nat)
    (hkey : ∀ r ∈ s.rows, ent.key r ≠ ent.key (ent.fresh s b now)) :
    ent.create s (some b) now =
        (.created (ent.fresh s b now),
          { rows := s.rows ++ [ent.fresh s b now], nextID := s.nextID + 1 }) ∧
      ent.get { rows := s.rows ++ [ent.fresh s b now], nextID := s.nextID + 1 }
        (ent.key (ent.fresh s b now)) = .ok (ent.fresh s b now) := by
  have hany : s.rows.any (fun r => decide (ent.key r = ent.key (ent.fresh s b now))) = false := by
    rw [List.any_eq_false]
    intro r hr
    simpa using hkey r hr
  have hold : (s.rows.filter ent.live).find?
      (fun e => decide (ent.key e = ent.key (ent.fresh s b now))) = none := by
    simp only [List.find?_eq_none, List.mem_filter, decide_eq_true_eq]
    intro r hr
    exact hkey r hr.1
  constructor
  · simp [Entity.create, hany]
  · simp [Entity.get, Entity.lookup, Entity.visible, List.filter_append, List.find?_append,
      hold, Entity.live_fresh]

theorem Entity.visible_after_delete {E K : Type} [DecidableEq K] (ent : Entity E K) (rows : List E) (k : K) (now : Nat) :
    (rows.map fun r => if ent.live r && decide (ent.key r = k) then ent.marked now r else r).filter
        ent.live =
      (rows.filter ent.live).filter fun e => !decide (ent.key e = k) := by
  generalize hf :
    (fun r => if ent.live r && decide (ent.key r = k) then ent.marked now r else r) = f
  have hfr : ∀ r, f r = if ent.live r && decide (ent.key r = k) then ent.marked now r else r :=
    fun r => by rw [← hf]
  induction rows with
  | nil => rfl
  | cons r t ih =>
    rw [List.map_cons, hfr r]
    by_cases hl : ent.live r = true
    · by_cases hk : ent.key r = k
      · have hm : ent.live (ent.marked now r) = false := ent.live_marked now r
        simp only [hl, hk, decide_True, Bool.and_self, if_true, List.filter_cons, hm,
          Bool.false_eq_true, if_false, Bool.not_true, ih]
      · simp only [hl, hk, decide_False, Bool.and_false, Bool.false_eq_true, if_false,
          List.filter_cons, if_true, Bool.not_false, ih]
    · simp only [hl, Bool.false_and, Bool.false_eq_true, if_false, List.filter_cons, ih]

theorem Store.WF_empty {E K : Type} (ent : Entity E K) : Store.WF ent (Store.empty E) := by
  simp [Store.WF, Store.empty]

theorem Store.WF_create {E K : Type} [DecidableEq K] (ent : Entity E K) (s : Store E) (body : Option E) (now : Nat)
    (h : Store.WF ent s) : Store.WF ent (ent.create s body now).2 := by
  cases body with
  | none => exact h
  | some b =>
    by_cases hany :
        s.rows.any (fun r => decide (ent.key r = ent.key (ent.fresh s b now))) = true
    · simpa [Entity.create, hany] using h
    · simp only [Entity.create, hany, if_false]
      refine ⟨Nat.succ_pos _, ?_⟩
      intro r hr
      rcases List.mem_append.1 hr with hr | hr
      · exact Nat.lt_succ_of_lt (h.2 r hr)
      · rw [List.mem_singleton] at hr
        subst hr
        simp [Entity.fresh, ent.model_withModel]

theorem Store.WF_update {E K : Type} [DecidableEq K] (ent : Entity E K) (s : Store E) (k : K) (patch : E → E) (now : Nat)
    (h : Store.WF ent s) : Store.WF ent (ent.update s k patch now).2 := by
  unfold Entity.update
  split
  · exact h
  · refine ⟨h.1, ?_⟩
    intro r hr
    obtain ⟨r0, hr0, rfl⟩ := List.mem_map.1 hr
    split
    · simpa [Entity.patched, ent.model_withModel] using h.2 r0 hr0
    · exact h.2 r0 hr0

theorem Store.WF_delete {E K : Type} [DecidableEq K] (ent : Entity E K) (s : Store E) (k : K) (now : Nat)
    (h : Store.WF ent s) : Store.WF ent (ent.delete s k now).2 := by
  unfold Entity.delete
  split
  · exact h
  · refine ⟨h.1, ?_⟩
    intro r hr
    obtain ⟨r0, hr0, rfl⟩ := List.mem_map.1 hr
    split
    · simpa [Entity.marked, ent.model_withModel] using h.2 r0 hr0
    · exact h.2 r0 hr0

end RepositoryLemmas

/-! ## Lemmas on the middleware and the engine -/

theorem validateOrigin_corsConfig (origin : String) :
    validateOrigin corsConfig origin = true ↔ origin = "http://localhost:5173" := by
  have hstar : (["http://localhost:5173"] : List String).contains "*" = false := by decide
  simp only [validateOrigin, corsConfig, hstar, Bool.false_or]
  simp [eq_comm]

theorem data_length_eq_zero_iff (s : String) : s.data.length = 0 ↔ s = "" := by
  constructor
  · intro h
    exact String.ext (List.length_eq_zero.1 h)
  · intro h
    subst h
    rfl

theorem applyCors_not_cross_origin (cfg : Config) (req : Request)
    (h : req.origin = "" ∨ req.origin = "http://" ++ req.host ∨
      req.origin = "https://" ++ req.host) :
    applyCors cfg req = .next [] := by
  unfold applyCors
  by_cases h0 : req.origin.data.length = 0
  · simp only [h0, if_true]
  · have hne : req.origin ≠ "" := fun he => h0 ((data_length_eq_zero_iff _).2 he)
    have hsame : req.origin = "http://" ++ req.host ∨ req.origin = "https://" ++ req.host := by
      rcases h with h | h
      · exact absurd h hne
      · exact h
    simp only [h0, if_false, hsame, if_true]

theorem applyCors_cross_origin (cfg : Config) (req : Request)
    (h0 : req.origin ≠ "") (h1 : req.origin ≠ "http://" ++ req.host)
    (h2 : req.origin ≠ "https://" ++ req.host) :
    applyCors cfg req =
      if validateOrigin cfg req.origin = false then .abort StatusForbidden []
      else if req.method = "OPTIONS" then
        .abort StatusNoContent (generatePreflightHeaders cfg ++ allowOriginHeader cfg req.origin)
      else .next (generateNormalHeaders cfg ++ allowOriginHeader cfg req.origin) := by
  have hlen : ¬ req.origin.data.length = 0 := fun h => h0 ((data_length_eq_zero_iff _).1 h)
  have hsame : ¬ (req.origin = "http://" ++ req.host ∨ req.origin = "https://" ++ req.host) := by
    rintro (h | h)
    · exact h1 h
    · exact h2 h
  unfold applyCors
  simp only [hlen, if_false, hsame]

theorem handleHTTPRequest_matched (req : Request) (h : Handler) (bound : Params)
    (hfind : findRoute mainRoutes req.method req.path = some (h, bound)) :
    handleHTTPRequest mainEngine req = runChain mainEngine req (Outcome.handler h bound) := by
  simp only [handleHTTPRequest, getValue, mainEngine, hfind]

theorem handleHTTPRequest_unmatched (req : Request)
    (hfind : findRoute mainRoutes req.method req.path = none) :
    handleHTTPRequest mainEngine req =
      if wantsRedirect mainEngine req then redirectTrailingSlash req
      else runChain mainEngine req noRouteHandler := by
  simp only [handleHTTPRequest, getValue, mainEngine, hfind]

theorem wantsRedirect_of_no_final_slash (req : Request)
    (h : req.path.data.getLast? ≠ some '/') : wantsRedirect mainEngine req = false := by
  simp [wantsRedirect, getValue, trailingSlashRecommended, h]

/-! ## The route table -/

/-- C1: the table built by `main` holds exactly the 26 bindings of the
specification's interface table (five per resource at the stated verb and
path, and `POST /users/login` for `Login`), every handler sits under the path
of its own resource, and no verb and pattern pair is registered twice. -/
theorem route_table_is_spec_table :
    mainRoutes.length = 26 ∧
    specRoutes.length = 26 ∧
    (∀ r ∈ specRoutes, r ∈ mainRoutes) ∧
    (∀ r ∈ mainRoutes, r ∈ specRoutes) ∧
    (⟨"POST", "/users/login", ⟨.userRepo, "Login"⟩⟩ : Route) ∈ mainRoutes ∧
    (∀ r ∈ mainRoutes, ownerOfPattern r.pattern = some r.handler.repo) ∧
    (mainRoutes.map fun r => (r.verb, r.pattern)).Nodup := by
  refine ⟨by decide, by decide, by decide, by decide, by decide, by decide, by decide⟩

/-- Witness of C1: the get-one binding of teachers, taken from the table of
the specification, is registered by `main`. -/
theorem route_table_is_spec_table_witness :
    (⟨"GET", "/teachers/:id", ⟨.teacherRepo, "GetTeacher"⟩⟩ : Route) ∈ mainRoutes :=
  route_table_is_spec_table.2.2.1 _ (by decide)

/-! ## Unmatched requests -/

/-- C2, as stated, fails: `GET /items/` matches no registered route, yet the
engine answers it with a 301 redirect to `/items` and not with the not-found
body, while `PUT /items/` on the same path gets the not-found body, and
`PUT /items//` is redirected with 307: the answer to an unmatched path depends
on the verb. An unmatched preflight from the listed origin is answered 204 by
the middleware, and an unmatched request from a foreign origin 403. -/
theorem unmatched_trailing_slash_is_redirected :
    (∀ r ∈ mainRoutes, routeMatches r "GET" "/items/" = false) ∧
    handleHTTPRequest mainEngine ⟨"GET", "/items/", "", "localhost:5000"⟩ =
      .redirect 301 "/items" ∧
    (∀ r ∈ mainRoutes, routeMatches r "PUT" "/items/" = false) ∧
    handleHTTPRequest mainEngine ⟨"PUT", "/items/", "", "localhost:5000"⟩ =
      .json 404 "\x7b\"message\":\"Not found\"\x7d" [] ∧
    handleHTTPRequest mainEngine ⟨"PUT", "/items//", "", "localhost:5000"⟩ =
      .redirect 307 "/items/" ∧
    handleHTTPRequest mainEngine
        ⟨"OPTIONS", "/nope", "http://localhost:5173", "localhost:5000"⟩ =
      .abort 204
        [("Access-Control-Allow-Credentials", "true"),
          ("Access-Control-Allow-Methods", "GET,POST,PUT,PATCH,DELETE,HEAD"),
          ("Access-Control-Allow-Headers", "Origin,Content-Length,Content-Type"),
          ("Access-Control-Max-Age", "43200"),
          ("Vary", "Origin"), ("Vary", "Access-Control-Request-Method"),
          ("Vary", "Access-Control-Request-Headers"),
          ("Access-Control-Allow-Origin", "http://localhost:5173")] ∧
    handleHTTPRequest mainEngine ⟨"GET", "/nope", "http://localhost:3000", "localhost:5000"⟩ =
      .abort 403 [] ∧
    ¬ ∀ req : Request, (∀ r ∈ mainRoutes, routeMatches r req.method req.path = false) →
        ∃ set, handleHTTPRequest mainEngine req =
          .json 404 "\x7b\"message\":\"Not found\"\x7d" set := by
  refine ⟨by decide, by decide, by decide, by decide, by decide, by decide, by decide, ?_⟩
  intro h
  obtain ⟨set, h1⟩ := h ⟨"GET", "/items/", "", "localhost:5000"⟩ (by decide)
  have h2 : handleHTTPRequest mainEngine ⟨"GET", "/items/", "", "localhost:5000"⟩ =
      .redirect 301 "/items" := by decide
  rw [h2] at h1
  cases h1

/-- C2, amended: a request that matches no registered route, that the engine
does not answer with a trailing-slash redirect, and that the cross-origin
middleware lets through (no `Origin`, an `Origin` naming the request's own
host, or the listed origin on a verb other than `OPTIONS`) is answered by the
`NoRoute` handler: status 404 and the body `{"message":"Not found"}`,
whatever the verb; without a cross-origin `Origin` no header is added. -/
theorem unmatched_passed_request_is_not_found (req : Request)
    (h : ∀ r ∈ mainRoutes, routeMatches r req.method req.path = false)
    (hred : wantsRedirect mainEngine req = false)
    (hcors : req.origin = "" ∨ req.origin = "http://" ++ req.host ∨
      req.origin = "https://" ++ req.host ∨
      (req.origin = "http://localhost:5173" ∧ req.method ≠ "OPTIONS")) :
    (∃ set, applyCors corsConfig req = .next set ∧
      handleHTTPRequest mainEngine req =
        .json 404 "\x7b\"message\":\"Not found\"\x7d" set) ∧
    ((req.origin = "" ∨ req.origin = "http://" ++ req.host ∨
        req.origin = "https://" ++ req.host) →
      handleHTTPRequest mainEngine req =
        .json 404 "\x7b\"message\":\"Not found\"\x7d" []) := by
  have hfind : findRoute mainRoutes req.method req.path = none :=
    (findRoute_eq_none_iff mainRoutes req.method req.path).2 h
  have hbody : encodeJSON [("message", "Not found")] = "\x7b\"message\":\"Not found\"\x7d" := by
    decide
  have hrun : ∀ set, applyCors corsConfig req = .next set →
      handleHTTPRequest mainEngine req =
        .json 404 "\x7b\"message\":\"Not found\"\x7d" set := by
    intro set hset
    rw [handleHTTPRequest_unmatched req hfind, hred]
    simp only [Bool.false_eq_true, if_false, runChain, mainEngine, hset, noRouteHandler,
      hbody, StatusNotFound]
  constructor
  · by_cases hnc : req.origin = "" ∨ req.origin = "http://" ++ req.host ∨
        req.origin = "https://" ++ req.host
    · exact ⟨[], applyCors_not_cross_origin corsConfig req hnc,
        hrun [] (applyCors_not_cross_origin corsConfig req hnc)⟩
    · have hlisted : req.origin = "http://localhost:5173" ∧ req.method ≠ "OPTIONS" := by
        rcases hcors with h0 | h1 | h2 | h3
        · exact absurd (Or.inl h0) hnc
        · exact absurd (Or.inr (Or.inl h1)) hnc
        · exact absurd (Or.inr (Or.inr h2)) hnc
        · exact h3
      have hv : validateOrigin corsConfig req.origin = true :=
        (validateOrigin_corsConfig req.origin).2 hlisted.1
      have hc := applyCors_cross_origin corsConfig req (fun e => hnc (Or.inl e))
        (fun e => hnc (Or.inr (Or.inl e))) (fun e => hnc (Or.inr (Or.inr e)))
      simp only [hv, Bool.true_eq_false, if_false, hlisted.2] at hc
      exact ⟨_, hc, hrun _ hc⟩
  · intro hnc
    exact hrun [] (applyCors_not_cross_origin corsConfig req hnc)

/-- Witness of C2 amended: `PATCH /nope` without an `Origin` header. -/
theorem unmatched_passed_request_is_not_found_witness :
    handleHTTPRequest mainEngine ⟨"PATCH", "/nope", "", "localhost:5000"⟩ =
      .json 404 "\x7b\"message\":\"Not found\"\x7d" [] :=
  (unmatched_passed_request_is_not_found ⟨"PATCH", "/nope", "", "localhost:5000"⟩
    (by decide) (by decide) (Or.inl rfl)).2 (Or.inl rfl)

/-! ## `/users/login` against `/users/:email` -/

/-- C10: `POST /users/login` resolves to `Login` with no parameter bound, no
POST route has a parameter segment, `GET`, `PUT` and `DELETE` on
`/users/login` resolve to `GetUser`, `UpdateUser` and `DeleteUser` with
`email` bound to `login`, and every request matches at most one registered
route. The resolution is that of the tree lookup, whatever the headers; a
request without `Origin` reaches the resolved handler, and with any headers
the chain that runs ends in that handler. -/
theorem users_login_resolves_by_verb :
    (getValue mainRoutes "POST" "/users/login").handlers = some (⟨.userRepo, "Login"⟩, []) ∧
    (∀ host, handleHTTPRequest mainEngine ⟨"POST", "/users/login", "", host⟩ =
      .handler ⟨.userRepo, "Login"⟩ [] []) ∧
    (∀ origin host, handleHTTPRequest mainEngine ⟨"POST", "/users/login", origin, host⟩ =
      runChain mainEngine ⟨"POST", "/users/login", origin, host⟩
        (Outcome.handler ⟨.userRepo, "Login"⟩ [])) ∧
    (∀ r ∈ mainRoutes, r.verb = "POST" →
      ∀ seg ∈ splitSlash r.pattern.data, paramName seg = none) ∧
    (getValue mainRoutes "GET" "/users/login").handlers =
      some (⟨.userRepo, "GetUser"⟩, [("email", "login")]) ∧
    (getValue mainRoutes "PUT" "/users/login").handlers =
      some (⟨.userRepo, "UpdateUser"⟩, [("email", "login")]) ∧
    (getValue mainRoutes "DELETE" "/users/login").handlers =
      some (⟨.userRepo, "DeleteUser"⟩, [("email", "login")]) ∧
    (∀ host, handleHTTPRequest mainEngine ⟨"GET", "/users/login", "", host⟩ =
      .handler ⟨.userRepo, "GetUser"⟩ [("email", "login")] []) ∧
    (∀ host, handleHTTPRequest mainEngine ⟨"PUT", "/users/login", "", host⟩ =
      .handler ⟨.userRepo, "UpdateUser"⟩ [("email", "login")] []) ∧
    (∀ host, handleHTTPRequest mainEngine ⟨"DELETE", "/users/login", "", host⟩ =
      .handler ⟨.userRepo, "DeleteUser"⟩ [("email", "login")] []) ∧
    ∀ verb path : String,
      (mainRoutes.filter fun r => routeMatches r verb path).length ≤ 1 := by
  have hdirect : ∀ (verb : String) (h : Handler) (bound : Params) (host : String),
      findRoute mainRoutes verb "/users/login" = some (h, bound) →
      handleHTTPRequest mainEngine ⟨verb, "/users/login", "", host⟩ = .handler h bound [] := by
    intro verb h bound host hfind
    rw [handleHTTPRequest_matched ⟨verb, "/users/login", "", host⟩ h bound hfind]
    simp only [runChain, mainEngine,
      applyCors_not_cross_origin corsConfig ⟨verb, "/users/login", "", host⟩ (Or.inl rfl)]
  have hpost : findRoute mainRoutes "POST" "/users/login" =
      some (⟨.userRepo, "Login"⟩, []) := by decide
  have hget : findRoute mainRoutes "GET" "/users/login" =
      some (⟨.userRepo, "GetUser"⟩, [("email", "login")]) := by decide
  have hput : findRoute mainRoutes "PUT" "/users/login" =
      some (⟨.userRepo, "UpdateUser"⟩, [("email", "login")]) := by decide
  have hdel : findRoute mainRoutes "DELETE" "/users/login" =
      some (⟨.userRepo, "DeleteUser"⟩, [("email", "login")]) := by decide
  refine ⟨by decide, ?_, ?_, by decide, by decide, by decide, by decide, ?_, ?_, ?_, ?_⟩
  · intro host
    exact hdirect "POST" _ _ host hpost
  · intro origin host
    exact handleHTTPRequest_matched ⟨"POST", "/users/login", origin, host⟩ _ _ hpost
  · intro host
    exact hdirect "GET" _ _ host hget
  · intro host
    exact hdirect "PUT" _ _ host hput
  · intro host
    exact hdirect "DELETE" _ _ host hdel
  · intro verb path
    apply filter_length_le_one
    refine mainRoutes_pairwise_disjoint.imp ?_
    intro a b hab hboth
    exact hab (overlaps_of_routeMatches a b verb path hboth.1 hboth.2)

/-- Witness of C10: `GET /users/login` matches at most one route. -/
theorem users_login_resolves_by_verb_witness :
    (mainRoutes.filter fun r => routeMatches r "GET" "/users/login").length ≤ 1 :=
  users_login_resolves_by_verb.2.2.2.2.2.2.2.2.2.2 "GET" "/users/login"

/-! ## Cross-origin policy -/

/-- C8, as stated, fails: an origin other than the listed one is not always
refused. A request whose `Origin` is `http://localhost:5000`, sent to host
`localhost:5000`, passes the middleware unchecked and reaches `GetItems`, and
so does a request without `Origin`. -/
theorem same_host_origin_is_not_checked :
    "http://localhost:5000" ≠ "http://localhost:5173" ∧
    validateOrigin corsConfig "http://localhost:5000" = false ∧
    applyCors corsConfig ⟨"GET", "/items", "http://localhost:5000", "localhost:5000"⟩ =
      .next [] ∧
    handleHTTPRequest mainEngine ⟨"GET", "/items", "http://localhost:5000", "localhost:5000"⟩ =
      .handler ⟨.itemRepo, "GetItems"⟩ [] [] ∧
    handleHTTPRequest mainEngine ⟨"GET", "/items", "", "localhost:5000"⟩ =
      .handler ⟨.itemRepo, "GetItems"⟩ [] [] ∧
    ¬ ∀ req : Request, req.origin ≠ "http://localhost:5173" →
        ∃ set, applyCors corsConfig req = .abort 403 set := by
  refine ⟨by decide, by decide, by decide, by decide, by decide, ?_⟩
  intro h
  obtain ⟨set, h1⟩ :=
    h ⟨"GET", "/items", "http://localhost:5000", "localhost:5000"⟩ (by decide)
  have h2 : applyCors corsConfig ⟨"GET", "/items", "http://localhost:5000", "localhost:5000"⟩ =
      .next [] := by decide
  rw [h2] at h1
  cases h1

/-- C8, amended: the policy lists the single origin `http://localhost:5173`,
and for every cross-origin request (an `Origin` that is present and does not
name the request's own host) the middleware aborts with 403, setting no
header, whenever the origin is any other string, so that no handler runs; for
the listed origin a preflight is answered 204 with credentials allowed, the
six verbs, the three headers and the origin echoed, and any other verb passes
on with credentials allowed and the origin echoed. -/
theorem cors_checks_cross_origin_requests (req : Request)
    (h0 : req.origin ≠ "") (h1 : req.origin ≠ "http://" ++ req.host)
    (h2 : req.origin ≠ "https://" ++ req.host) :
    corsConfig.AllowOrigins = ["http://localhost:5173"] ∧
    (validateOrigin corsConfig req.origin = true ↔ req.origin = "http://localhost:5173") ∧
    (req.origin ≠ "http://localhost:5173" →
      applyCors corsConfig req = .abort 403 [] ∧
      (handleHTTPRequest mainEngine req = .abort 403 [] ∨
        handleHTTPRequest mainEngine req = redirectTrailingSlash req)) ∧
    (req.origin = "http://localhost:5173" → req.method = "OPTIONS" →
      applyCors corsConfig req = .abort 204
        [("Access-Control-Allow-Credentials", "true"),
          ("Access-Control-Allow-Methods", "GET,POST,PUT,PATCH,DELETE,HEAD"),
          ("Access-Control-Allow-Headers", "Origin,Content-Length,Content-Type"),
          ("Access-Control-Max-Age", "43200"),
          ("Vary", "Origin"), ("Vary", "Access-Control-Request-Method"),
          ("Vary", "Access-Control-Request-Headers"),
          ("Access-Control-Allow-Origin", "http://localhost:5173")]) ∧
    (req.origin = "http://localhost:5173" → req.method ≠ "OPTIONS" →
      applyCors corsConfig req = .next
        [("Access-Control-Allow-Credentials", "true"), ("Vary", "Origin"),
          ("Access-Control-Allow-Origin", "http://localhost:5173")]) := by
  have hc := applyCors_cross_origin corsConfig req h0 h1 h2
  have hpre : generatePreflightHeaders corsConfig =
      [("Access-Control-Allow-Credentials", "true"),
        ("Access-Control-Allow-Methods", "GET,POST,PUT,PATCH,DELETE,HEAD"),
        ("Access-Control-Allow-Headers", "Origin,Content-Length,Content-Type"),
        ("Access-Control-Max-Age", "43200"),
        ("Vary", "Origin"), ("Vary", "Access-Control-Request-Method"),
        ("Vary", "Access-Control-Request-Headers")] := by decide
  have hnorm : generateNormalHeaders corsConfig =
      [("Access-Control-Allow-Credentials", "true"), ("Vary", "Origin")] := by decide
  have hall : allowAllOrigins corsConfig = false := by decide
  refine ⟨rfl, validateOrigin_corsConfig req.origin, ?_, ?_, ?_⟩
  · intro hne
    have hv : validateOrigin corsConfig req.origin = false := by
      cases hval : validateOrigin corsConfig req.origin with
      | false => rfl
      | true => exact absurd ((validateOrigin_corsConfig req.origin).1 hval) hne
    have habort : applyCors corsConfig req = .abort 403 [] := by
      rw [hc]
      simp only [hv, if_true, StatusForbidden]
    refine ⟨habort, ?_⟩
    cases hfind : findRoute mainRoutes req.method req.path with
    | none =>
      rw [handleHTTPRequest_unmatched req hfind]
      by_cases hred : wantsRedirect mainEngine req = true
      · exact Or.inr (by rw [hred]; rfl)
      · refine Or.inl ?_
        rw [Bool.not_eq_true] at hred
        rw [hred]
        simp only [Bool.false_eq_true, if_false, runChain, mainEngine, habort]
    | some hb =>
      refine Or.inl ?_
      rw [handleHTTPRequest_matched req hb.1 hb.2 hfind]
      simp only [runChain, mainEngine, habort]
  · intro heq hopt
    have hv : validateOrigin corsConfig req.origin = true :=
      (validateOrigin_corsConfig req.origin).2 heq
    rw [hc, hv]
    simp only [Bool.true_eq_false, if_false, hopt, if_true, hpre, allowOriginHeader, hall,
      Bool.false_eq_true, heq, StatusNoContent, List.cons_append, List.nil_append]
  · intro heq hopt
    have hv : validateOrigin corsConfig req.origin = true :=
      (validateOrigin_corsConfig req.origin).2 heq
    rw [hc, hv]
    simp only [Bool.true_eq_false, if_false, hopt, hnorm, allowOriginHeader, hall,
      Bool.false_eq_true, heq, List.cons_append, List.nil_append]

/-- Witness of C8 amended: a request from `http://evil.example` to host
`localhost:5000` is aborted with 403. -/
theorem cors_checks_cross_origin_requests_witness :
    applyCors corsConfig ⟨"GET", "/items", "http://evil.example", "localhost:5000"⟩ =
      .abort 403 [] :=
  ((cors_checks_cross_origin_requests
    ⟨"GET", "/items", "http://evil.example", "localhost:5000"⟩
    (by decide) (by decide) (by decide)).2.2.1 (by decide)).1

/-- C9 fails on the code: the origin the comment of line 54 names,
`http://localhost:3000`, is rejected by the origin check of the policy, and a
request from it is aborted with 403. -/
theorem commented_origin_is_rejected :
    commentedFrontendOrigin = "http://localhost:3000" ∧
    validateOrigin corsConfig commentedFrontendOrigin = false ∧
    "http://localhost:3000" ∉ corsConfig.AllowOrigins ∧
    handleHTTPRequest mainEngine ⟨"GET", "/items", commentedFrontendOrigin, "localhost:5000"⟩ =
      .abort 403 [] := by
  decide

/-! ## Start-up -/

/-- C7: when loading the configuration, connecting to the database or
migrating the schema fails, the trace of `main` ends in a `log.Fatalf`, is the
successful sequence cut right after the failing step, holds no step twice, and
holds neither a route registration nor the listen step; when nothing fails the
steps run in the order load, connect, migrate the five entities, set up the
router (the cross-origin middleware, the 26 registrations, `NoRoute`), listen
on `:5000`. -/
theorem startup_is_fail_fast (w : World)
    (hfail : w.loadErr.isSome = true ∨ w.connectErr.isSome = true ∨ w.migrateErr.isSome = true) :
    endsFatal (main w) = true ∧
    (main w).dropLast <+: main ⟨none, none, none, none⟩ ∧
    (main w).Nodup ∧
    (∀ e ∈ main w, e.isServing = false) ∧
    (w.loadErr.isSome = true → main w = [.loadEnv, .fatal "Error loading .env file"]) ∧
    (∀ err, w.loadErr = none → w.connectErr = some err →
      main w = [.loadEnv, .connectDatabase, .fatal ("failed to connect database: " ++ err)]) ∧
    (∀ err, w.loadErr = none → w.connectErr = none → w.migrateErr = some err →
      main w = [.loadEnv, .connectDatabase, .autoMigrate migratedModels,
        .fatal ("failed to migrate database: " ++ err)]) ∧
    main ⟨none, none, none, none⟩ =
      [.loadEnv, .connectDatabase,
        .autoMigrate ["Item", "Student", "Subject", "User", "Teacher"]] ++
        setupRouter ++ [.run ":5000"] ∧
    main ⟨none, none, none, none⟩ =
      [.loadEnv, .connectDatabase,
        .autoMigrate ["Item", "Student", "Subject", "User", "Teacher"],
        .useCors corsConfig] ++
        mainRoutes.map Event.register ++ [.noRoute, .run ":5000"] := by
  obtain ⟨l, c, m, r⟩ := w
  refine ⟨?_, ?_, ?_, ?_, ?_, ?_, ?_, ?_, by decide⟩
  · cases l <;> cases c <;> cases m <;> simp_all [main, endsFatal]
  · cases l <;> cases c <;> cases m <;> simp_all [main, List.dropLast]
  · cases l <;> cases c <;> cases m <;> simp_all [main]
  · cases l <;> cases c <;> cases m <;> simp_all [main, Event.isServing]
  · cases l <;> simp [main]
  · intro err h1 h2
    simp only at h1 h2
    subst h1 h2
    simp [main]
  · intro err h1 h2 h3
    simp only at h1 h2 h3
    subst h1 h2 h3
    simp [main]
  · simp [main, migratedModels]

/-- Witness of C7: the database connection fails. -/
theorem startup_is_fail_fast_witness :
    main ⟨none, some "dial tcp: connection refused", none, none⟩ =
      [.loadEnv, .connectDatabase,
        .fatal "failed to connect database: dial tcp: connection refused"] :=
  (startup_is_fail_fast ⟨none, some "dial tcp: connection refused", none, none⟩
    (Or.inr (Or.inl rfl))).2.2.2.2.2.1 _ rfl rfl

/-! ## Repositories -/

/-- C3: for every entity, creating a record from a body whose key is not yet
taken and fetching it by the key of the returned record yields that record:
the body with only its `gorm.Model` replaced, carrying the generated identity
and both timestamps; for Teacher on a well-formed store every body is
accepted, the identity is positive and the four input fields come back
unchanged. -/
theorem create_then_get_returns_input :
    (∀ (E K : Type) [DecidableEq K] (ent : Entity E K) (s : Store E) (b : E) (now : Nat),
      (∀ r ∈ s.rows, ent.key r ≠ ent.key (ent.fresh s b now)) →
      ∃ row s', ent.create s (some b) now = (.created row, s') ∧
        (Response.created row).status = 201 ∧
        ent.get s' (ent.key row) = .ok row ∧
        row = ent.withModel b (ent.model row) ∧
        ent.model row =
          { ID := s.nextID, CreatedAt := now, UpdatedAt := now, DeletedAt := none }) ∧
    (∀ (s : Store Teacher) (b : Teacher) (now : Nat), Store.WF teacherEntity s →
      ∃ row s', teacherEntity.create s (some b) now = (.created row, s') ∧
        teacherEntity.get s' row.ID = .ok row ∧
        row.FirstName = b.FirstName ∧ row.LastName = b.LastName ∧
        row.Age = b.Age ∧ row.Subject = b.Subject ∧
        row.ID = s.nextID ∧ 0 < row.ID ∧
        row.CreatedAt = now ∧ row.UpdatedAt = now ∧ row.DeletedAt = none) := by
  constructor
  · intro E K _ ent s b now hkey
    obtain ⟨hc, hg⟩ := ent.create_fresh_key s b now hkey
    refine ⟨ent.fresh s b now, _, hc, rfl, hg, ?_, ?_⟩
    · simp [Entity.fresh, ent.model_withModel]
    · simp [Entity.fresh, ent.model_withModel]
  · intro s b now hwf
    have hkey : ∀ r ∈ s.rows,
        teacherEntity.key r ≠ teacherEntity.key (teacherEntity.fresh s b now) := by
      intro r hr
      exact Nat.ne_of_lt (hwf.2 r hr)
    obtain ⟨hc, hg⟩ := teacherEntity.create_fresh_key s b now hkey
    exact ⟨teacherEntity.fresh s b now, _, hc, hg, rfl, rfl, rfl, rfl, rfl, hwf.1, rfl, rfl, rfl⟩

/-- Witness of C3: the example of the specification, on the empty store at
time 7: the teacher Ann Lee is created with identity 1 and read back. -/
theorem create_then_get_returns_input_witness :
    ∃ row s', teacherEntity.create (Store.empty Teacher) (some annLee) 7 = (.created row, s') ∧
      teacherEntity.get s' row.ID = .ok row ∧
      row.FirstName = "Ann" ∧ row.LastName = "Lee" ∧ row.Age = 30 ∧ row.Subject = "Math" ∧
      row.ID = 1 ∧ 0 < row.ID ∧ row.CreatedAt = 7 ∧ row.UpdatedAt = 7 ∧ row.DeletedAt = none :=
  create_then_get_returns_input.2 (Store.empty Teacher) annLee 7 (Store.WF_empty teacherEntity)

/-- C4: for every entity and every key that no live record has, get-by-key,
update and delete each answer not-found (status 404), and update and delete
hand the store back unchanged. -/
theorem absent_key_is_not_found {E K : Type} [DecidableEq K] (ent : Entity E K)
    (s : Store E) (k : K) (patch : E → E) (now : Nat)
    (habsent : ∀ r ∈ s.rows, ent.live r = true → ent.key r ≠ k) :
    ent.get s k = .notFound ∧
    ent.update s k patch now = (.notFound, s) ∧
    ent.delete s k now = (.notFound, s) ∧
    (Response.notFound : Response E).status = 404 := by
  have hl : ent.lookup s k = none := ent.lookup_eq_none s k habsent
  simp [Entity.get, Entity.update, Entity.delete, hl, Response.status]

/-- Witness of C4: key 1 belongs to a soft-deleted teacher only. -/
theorem absent_key_is_not_found_witness :
    teacherEntity.get deletedAnnStore 1 = .notFound ∧
    teacherEntity.update deletedAnnStore 1 (fun t => { t with Age := 31 }) 10 =
      (.notFound, deletedAnnStore) ∧
    teacherEntity.delete deletedAnnStore 1 10 = (.notFound, deletedAnnStore) ∧
    (Response.notFound : Response Teacher).status = 404 :=
  absent_key_is_not_found teacherEntity deletedAnnStore 1 (fun t => { t with Age := 31 }) 10
    (by decide)

/-- C5: for every entity and every key of a live record, delete succeeds and
afterwards the list holds the former live records without those of that key,
get-by-key and a second delete answer not-found, and no row is physically
removed: the store has as many rows, and each live row of that key is still
there with the same identity and its soft-delete timestamp set. -/
theorem delete_is_soft_and_hides {E K : Type} [DecidableEq K] (ent : Entity E K)
    (s : Store E) (k : K) (now later : Nat) (r : E)
    (hlive : ent.lookup s k = some r) :
    ∃ s', ent.delete s k now = (.deleted, s') ∧
      ent.list s' = .all ((ent.visible s).filter fun e => !decide (ent.key e = k)) ∧
      (∀ e ∈ ent.visible s', ent.key e ≠ k) ∧
      ent.get s' k = .notFound ∧
      ent.delete s' k later = (.notFound, s') ∧
      s'.rows.length = s.rows.length ∧
      s'.nextID = s.nextID ∧
      ∀ e ∈ s.rows, ent.live e = true → ent.key e = k →
        ent.marked now e ∈ s'.rows ∧
        (ent.model (ent.marked now e)).DeletedAt = some now ∧
        (ent.model (ent.marked now e)).ID = (ent.model e).ID := by
  have hvis := ent.visible_after_delete s.rows k now
  have hgone : ∀ e ∈ (s.rows.filter ent.live).filter (fun e => !decide (ent.key e = k)),
      ent.key e ≠ k := by
    intro e he
    simpa using (List.mem_filter.1 he).2
  have hlook : ((s.rows.filter ent.live).filter fun e => !decide (ent.key e = k)).find?
      (fun e => decide (ent.key e = k)) = none := by
    rw [List.find?_eq_none]
    intro e he
    simpa using hgone e he
  refine ⟨(ent.delete s k now).2, by simp only [Entity.delete, hlive], ?_⟩
  simp only [Entity.delete, hlive]
  refine ⟨?_, ?_, ?_, ?_, ?_, trivial, ?_⟩
  · simp only [Entity.list, Entity.visible, hvis]
  · simp only [Entity.visible, hvis]
    exact hgone
  · simp only [Entity.get, Entity.lookup, Entity.visible, hvis, hlook]
  · simp only [Entity.delete, Entity.lookup, Entity.visible, hvis, hlook]
  · simp
  · intro e he hl hk
    refine ⟨?_, ?_, ?_⟩
    · apply List.mem_map.2
      exact ⟨e, he, by simp [hl, hk]⟩
    · simp [Entity.marked, ent.model_withModel]
    · simp [Entity.marked, ent.model_withModel]

/-- Witness of C5: deleting teacher 1 at time 9 leaves the row in the store,
marked, and hides it from list, get and a second delete. -/
theorem delete_is_soft_and_hides_witness :
    teacherEntity.lookup annStore 1 = some annRow ∧
    teacherEntity.delete annStore 1 9 = (.deleted, deletedAnnStore) ∧
    teacherEntity.list deletedAnnStore = .all [] ∧
    teacherEntity.get deletedAnnStore 1 = .notFound ∧
    ∃ s', teacherEntity.delete annStore 1 9 = (.deleted, s') ∧
      teacherEntity.get s' 1 = .notFound ∧
      teacherEntity.delete s' 1 10 = (.notFound, s') ∧
      s'.rows.length = 1 :=
  ⟨by decide, by decide, by decide, by decide,
    (delete_is_soft_and_hides teacherEntity annStore 1 9 10 annRow (by decide)).imp
      fun _ h => ⟨h.1, h.2.2.2.1, h.2.2.2.2.1, h.2.2.2.2.2.1⟩⟩

/-- C6: login answers success only with a live user record that has the
submitted email and exactly the submitted password, and answers the one
authentication error (status 401) whenever there is none: when the email is
unknown, when the account of that email is soft-deleted, and when the
password differs. -/
theorem login_needs_live_exact_match (s : Store User) (email password : String) :
    (∀ u, Login s email password = .ok u →
      u ∈ s.rows ∧ u.DeletedAt = none ∧ u.Email = email ∧ u.Password = password) ∧
    ((∃ u ∈ s.rows, u.DeletedAt = none ∧ u.Email = email ∧ u.Password = password) →
      ∃ u, Login s email password = .ok u) ∧
    (Login s email password = .unauthorized ∨ ∃ u, Login s email password = .ok u) ∧
    ((∀ u ∈ s.rows, u.Email ≠ email) → Login s email password = .unauthorized) ∧
    ((∀ u ∈ s.rows, u.Email = email → u.DeletedAt ≠ none) →
      Login s email password = .unauthorized) ∧
    ((∀ u ∈ s.rows, u.Email = email → u.Password ≠ password) →
      Login s email password = .unauthorized) ∧
    (Response.unauthorized : Response User).status = 401 := by
  have hnone : (∀ u ∈ s.rows, ¬ (u.DeletedAt = none ∧ u.Email = email ∧ u.Password = password)) →
      Login s email password = .unauthorized := by
    intro h
    have hf : (userEntity.visible s).find?
        (fun u => decide (u.Email = email) && decide (u.Password = password)) = none := by
      simp only [List.find?_eq_none, Entity.visible, List.mem_filter, Bool.and_eq_true,
        decide_eq_true_eq]
      intro u hu hm
      refine h u hu.1 ⟨?_, hm.1, hm.2⟩
      simpa [Entity.live, userEntity] using hu.2
    simp only [Login, hf]
  refine ⟨?_, ?_, ?_, ?_, ?_, ?_, rfl⟩
  · intro u hu
    unfold Login at hu
    split at hu
    · rename_i v hv
      have hmem := List.mem_of_find?_eq_some hv
      have hp := List.find?_some hv
      simp only [Entity.visible, List.mem_filter] at hmem
      simp only [Bool.and_eq_true, decide_eq_true_eq] at hp
      cases hu
      refine ⟨hmem.1, ?_, hp.1, hp.2⟩
      simpa [Entity.live, userEntity] using hmem.2
    · cases hu
  · rintro ⟨u, hu, hd, he, hp⟩
    cases hf : (userEntity.visible s).find?
        (fun u => decide (u.Email = email) && decide (u.Password = password)) with
    | some v => exact ⟨v, by simp only [Login, hf]⟩
    | none =>
      exfalso
      rw [List.find?_eq_none] at hf
      refine hf u ?_ (by simp [he, hp])
      simp only [Entity.visible, List.mem_filter]
      exact ⟨hu, by simp [Entity.live, userEntity, hd]⟩
  · cases hf : (userEntity.visible s).find?
        (fun u => decide (u.Email = email) && decide (u.Password = password)) with
    | some v => exact Or.inr ⟨v, by simp only [Login, hf]⟩
    | none => exact Or.inl (by simp only [Login, hf])
  · intro h
    exact hnone fun u hu hm => h u hu hm.2.1
  · intro h
    exact hnone fun u hu hm => h u hu hm.2.1 hm.1
  · intro h
    exact hnone fun u hu hm => h u hu hm.2.1 hm.2.2

/-- Witness of C6: the right password of a live account succeeds; a wrong
password, an unknown email and a soft-deleted account get the same answer. -/
theorem login_needs_live_exact_match_witness :
    (∃ u, Login userStore "ann@example.com" "s3cret" = .ok u) ∧
    Login userStore "ann@example.com" "guess" = .unauthorized ∧
    Login userStore "eve@example.com" "s3cret" = .unauthorized ∧
    Login userStore "bob@example.com" "hunter2" = .unauthorized :=
  ⟨(login_needs_live_exact_match userStore "ann@example.com" "s3cret").2.1
      ⟨annUser, by decide, by decide, by decide, by decide⟩,
    (login_needs_live_exact_match userStore "ann@example.com" "guess").2.2.2.2.2.1 (by decide),
    (login_needs_live_exact_match userStore "eve@example.com" "s3cret").2.2.2.1 (by decide),
    (login_needs_live_exact_match userStore "bob@example.com" "hunter2").2.2.2.2.1 (by decide)⟩

end GoGormDb
